import Mathlib

/-!
Verification development for the play-bin container manager.

The Go sources are shallowly embedded: pure functions become Lean
functions, Go maps become association lists, the Docker engine and the
filesystem become explicit oracles (`Env`), and every side-effecting
operation of the container manager is recorded in an explicit event
trace.  String processing helpers (`strings.Split`, `strings.Trim`,
`path/filepath.Clean`, ...) are re-implemented structurally over
`List Char` so that every definition evaluates by kernel reduction.
-/

namespace PlayBin

/-- Splits a character list at every occurrence of `c`.  Mirrors Go
`strings.Split` for a one-character separator: the result always has at
least one (possibly empty) element, and `split "" = [""]`. -/
def splitOnChar (c : Char) : List Char → List (List Char)
  | [] => [[]]
  | x :: xs =>
    let r := splitOnChar c xs
    if x = c then [] :: r
    else
      match r with
      | [] => [[x]]
      | h :: t => (x :: h) :: t

/-- Builds a `String` back from a character list. -/
def ofChars (l : List Char) : String := String.mk l

/-- Go `strings.Split(s, c)` for a one-character separator `c`. -/
def splitStr (c : Char) (s : String) : List String :=
  (splitOnChar c s.data).map ofChars

/-- Joins character lists with the separator `c`; the inverse of
`splitOnChar` on separator-free segments. -/
def joinChars (c : Char) : List (List Char) → List Char
  | [] => []
  | [x] => x
  | x :: xs => x ++ c :: joinChars c xs

/-- Go `strings.Join(l, c)` for a one-character separator `c`. -/
def joinStr (c : Char) (l : List String) : String :=
  ofChars (joinChars c (l.map String.data))

/-- Drops every leading occurrence of `c`. -/
def trimLeftChar (c : Char) (l : List Char) : List Char :=
  l.dropWhile (· = c)

/-- Go `strings.Trim(s, cutset)` for a one-character cutset: drops the
character from both ends. -/
def trimBoth (c : Char) (s : String) : String :=
  ofChars ((trimLeftChar c (trimLeftChar c s.data).reverse).reverse)

/-!
## Configuration data model

Embeds `src/internal/config/config.go`.  Go maps (`map[string]T`)
become association lists; a `nil` map that the code distinguishes from
an empty one (`UserConfig.Permissions`) becomes an `Option`.  The
`ServerConfig` fields are the ones read by the embedded container
manager (`Image`, `Network`, `Mount`, `Commands`); the repository holds
several revisions of the config schema and only these fields are
consulted by the functions under verification.
-/

/-- Entrypoint/arguments override for container creation
(`StartConfig` in the Go sources). -/
structure StartConfig where
  entrypoint : String
  arguments : String
deriving DecidableEq

/-- One typed step of a stop/backup command sequence (`CmdConfig`). -/
structure CmdConfig where
  type : String
  arg : String
deriving DecidableEq

/-- The per-server command lists (`CommandsConfig`).  `Start` is a
pointer in Go, hence an `Option` here. -/
structure CommandsConfig where
  start : Option StartConfig
  stop : List CmdConfig
  backup : List CmdConfig
deriving DecidableEq

/-- Network section of a server definition (`NetworkConfig`). -/
structure NetworkConfig where
  mode : String
  mapping : List (String × String)
deriving DecidableEq

/-- One managed server definition (`ServerConfig`), restricted to the
fields the container manager reads. -/
structure ServerConfig where
  image : String
  network : NetworkConfig
  mount : List (String × String)
  commands : CommandsConfig
deriving DecidableEq

/-- One user entry (`UserConfig`).  `permissions == none` models a Go
`nil` map. -/
structure UserConfig where
  discord : String
  password : String
  permissions : Option (List (String × List String))
deriving DecidableEq

/-- The root configuration snapshot (`Config`). -/
structure Config where
  users : List (String × UserConfig)
  servers : List (String × ServerConfig)
deriving DecidableEq

/-- Constant `PermContainerRead` from `config.go`. -/
def PermContainerRead : String := "container.read"

/-- The segment loop of `matchRecursive` (`config.go` lines 97-108): a
`*` segment in the granted token grants immediately; a mismatched or
missing required segment denies; when the granted segments are
exhausted the lengths must agree. -/
def loopMatch : List String → List String → Bool
  | [], reqs => reqs.isEmpty
  | u :: us, reqs =>
    if u = "*" then true
    else
      match reqs with
      | [] => false
      | r :: rs => if u = r then loopMatch us rs else false

/-- Embeds `matchRecursive` (`config.go` lines 86-109): a literal `*`
grants everything, an exactly equal token grants, otherwise both tokens
are split on `.` and walked left to right. -/
def matchRecursive (userPerm required : String) : Bool :=
  if userPerm = "*" then true
  else if userPerm = required then true
  else loopMatch (splitStr '.' userPerm) (splitStr '.' required)

/-- Embeds `checkPermission` (`config.go` lines 75-82): some granted
entry must match the required permission. -/
def checkPermission (userPerms : List String) (required : String) : Bool :=
  userPerms.any fun p => matchRecursive p required

/-- Indexing a Go `map[string][]string`: a missing key yields the zero
value, the empty slice. -/
def lookupPerms (m : List (String × List String)) (k : String) : List String :=
  match m.lookup k with
  | some v => v
  | none => []

/-- Embeds `UserConfig.HasPermission` (`config.go` lines 56-72): deny
when the permission map is `nil`; otherwise try the exact server key,
then the `"*"` key. -/
def UserConfig.hasPermission (u : UserConfig) (serverName requiredPerm : String) : Bool :=
  match u.permissions with
  | none => false
  | some m =>
    if checkPermission (lookupPerms m serverName) requiredPerm then true
    else if checkPermission (lookupPerms m "*") requiredPerm then true
    else false

/-!
## ConfigStore state (`LoadedConfig`)

`Reload` (`config.go` lines 174-201) opens and parses `./config.json`.
The filesystem interaction is abstracted into a `ReloadOutcome`: the
open can fail, the JSON decode can fail, or both succeed yielding a new
`Config` together with the result of the subsequent `f.Stat()` call
(`none` when that stat fails).  `Reload` itself returns nothing in Go
(`func (c *LoadedConfig) Reload()`), so its embedding returns only the
updated state — there is no error channel to callers.
-/

/-- In-memory state of the config store: the current snapshot and the
recorded modification time of the last successful load. -/
structure LoadedState where
  config : Config
  lastLoaded : Int
deriving DecidableEq

/-- Outcome of the file operations performed by one `Reload` call. -/
inductive ReloadOutcome
  | openError
  | parseError
  | ok (newCfg : Config) (statModTime : Option Int)
deriving DecidableEq

/-- Embeds `LoadedConfig.Reload`: an open or parse failure returns
before touching `c.Config` or `c.LastLoaded`; on success the snapshot
is replaced and, when the trailing `f.Stat()` succeeds, `LastLoaded` is
updated. -/
def LoadedState.reload (s : LoadedState) : ReloadOutcome → LoadedState
  | ReloadOutcome.openError => s
  | ReloadOutcome.parseError => s
  | ReloadOutcome.ok newCfg statModTime =>
    match statModTime with
    | none => { s with config := newCfg }
    | some t => { config := newCfg, lastLoaded := t }

/-- Embeds `LoadedConfig.Get` (`config.go` lines 157-170): stat the
backing file (`statModTime`, `none` when the stat fails) and reload
first when its modification time is strictly newer than `LastLoaded`;
the reload's own file interaction is the `ReloadOutcome`.  Returns the
snapshot handed to the caller together with the updated state. -/
def LoadedState.get (s : LoadedState) (statModTime : Option Int)
    (o : ReloadOutcome) : Config × LoadedState :=
  match statModTime with
  | some t =>
    if s.lastLoaded < t then
      let s' := s.reload o
      (s'.config, s')
    else (s.config, s)
  | none => (s.config, s)

/-!
## Container lifecycle manager

Embeds the `Manager` of `src/internal/container/container.go` (the
revision at lines 1-319 of that file, whose line numbers the claims
cite).  Engine calls, shell invocations and file operations are
recorded as events; their outcomes come from an `Env` of oracles.
Where noted, a definition is instead modelled from the spec because the
current revision of the container package is absent from `src` (only
its callers are present).
-/

/-- Looks up a server by name, Go `cfg.Servers[id]` with its `ok`
flag. -/
def Config.lookupServer (cfg : Config) (id : String) : Option ServerConfig :=
  cfg.servers.lookup id

/-- Looks up a user by name. -/
def Config.lookupUser (cfg : Config) (name : String) : Option UserConfig :=
  cfg.users.lookup name

/-- Result of `docker.Client.ContainerInspect` for the container at
hand: found (with its running flag), a not-found error
(`client.IsErrNotFound`), or any other engine error. -/
inductive InspectResult
  | found (running : Bool)
  | notFound
  | otherError
deriving DecidableEq

/-- Go `err == nil && inspect.State.Running`. -/
def isFoundRunning : InspectResult → Bool
  | InspectResult.found true => true
  | _ => false

/-- The container/host configuration assembled by `Start` (lines
66-107) and passed to `ContainerCreate`. -/
structure CreateSpec where
  image : String
  entrypoint : Option (List String)
  cmd : Option (List String)
  binds : List String
  networkMode : String
  portBindings : List (String × String)
deriving DecidableEq

/-- Go `strings.Fields`: splits around runs of whitespace (the embedded
configs only ever contain spaces). -/
def fields (s : String) : List String :=
  ((splitOnChar ' ' s.data).filter (· ≠ [])).map ofChars

/-- Assembles the `ContainerCreate` payload exactly as `Start` does:
TTY/stdin flags aside (they are constants), the entrypoint and command
are overridden only when a custom start command is configured and
non-empty, every mount pair becomes a `host:container` bind, the
network mode defaults to `bridge`, and port bindings are built only in
bridge mode with a non-empty mapping table. -/
def buildCreateSpec (server : ServerConfig) : CreateSpec :=
  let entry :=
    match server.commands.start with
    | none => none
    | some st => if st.entrypoint = "" then none else some (fields st.entrypoint)
  let cmdArgs :=
    match server.commands.start with
    | none => none
    | some st => if st.arguments = "" then none else some (fields st.arguments)
  let mode := if server.network.mode = "" then "bridge" else server.network.mode
  { image := server.image
    entrypoint := entry
    cmd := cmdArgs
    binds := server.mount.map fun hc => hc.1 ++ ":" ++ hc.2
    networkMode := mode
    portBindings :=
      if mode = "bridge" ∧ server.network.mapping ≠ [] then
        server.network.mapping.map fun hc => (hc.2 ++ "/tcp", hc.1)
      else [] }

/-- One observable action of the container manager: engine calls,
stdin writes, waits, and file operations.  `rsync` records the copy
source, destination, optional `--link-dest` base, and the external
process outcome; the remaining `-avh --delete` flags are constant. -/
inductive Event
  | containerInspect (id : String)
  | containerRemove (id : String)
  | containerCreate (id : String) (spec : CreateSpec)
  | containerStart (id : String)
  | sendCommand (id arg : String)
  | sleepFor (d : Nat)
  | mkdirAll (dir : String)
  | statPath (p : String)
  | rsync (src dst : String) (linkDest : Option String) (ok : Bool)
  | removePath (p : String)
  | symlink (target linkName : String)
deriving DecidableEq

/-- Oracles for everything outside the manager: the engine's answer to
`ContainerInspect`, success of create/start, the outcome of the n-th
rsync run of the call, `os.Stat` existence, and Go
`time.ParseDuration`. -/
structure Env where
  inspect : InspectResult
  createOk : Bool
  startOk : Bool
  rsyncOk : Nat → Bool
  pathExists : String → Bool
  parseDuration : String → Option Nat

/-- The create-then-start tail of `Start` (lines 121-133): create the
container, then start it; either engine failure is returned. -/
def createStart (env : Env) (id : String) (spec : CreateSpec)
    (tr : List Event) : Option String × List Event :=
  let tr := tr ++ [Event.containerCreate id spec]
  if env.createOk then
    let tr := tr ++ [Event.containerStart id]
    if env.startOk then (none, tr)
    else (some "container start failed", tr)
  else (some "container create failed", tr)

/-- Embeds `Manager.Start` (lines 58-134): a missing server definition
or empty image is a silent no-op; an existing stopped container is
removed (its removal error ignored) before recreation; an existing
running container is left in place and creation proceeds anyway; a
non-not-found inspect error aborts; otherwise the container is created
and started. -/
def Manager.Start (cfg : Config) (env : Env) (id : String) :
    Option String × List Event :=
  match cfg.lookupServer id with
  | none => (none, [])
  | some server =>
    if server.image = "" then (none, [])
    else
      let spec := buildCreateSpec server
      match env.inspect with
      | InspectResult.found running =>
        if running then createStart env id spec [Event.containerInspect id]
        else createStart env id spec
          [Event.containerInspect id, Event.containerRemove id]
      | InspectResult.notFound => createStart env id spec [Event.containerInspect id]
      | InspectResult.otherError =>
        (some "container inspect failed", [Event.containerInspect id])

/-- Go `strings.SplitN(arg, ":", 2)`: `none` when the argument holds no
colon (the step is then skipped), otherwise the text before the first
colon and everything after it. -/
def splitN2Colon (s : String) : Option (String × String) :=
  match splitStr ':' s with
  | [] => none
  | [_] => none
  | p :: rest => some (p, joinStr ':' rest)

/-- Accumulator of the `Backup` step loop: the event trace so far, the
`hasError` flag, the count of rsync runs already launched (indexing
`Env.rsyncOk`), and the current file system view (updated when a
`latest` pointer is rotated). -/
structure BackupAcc where
  tr : List Event
  hasError : Bool
  ctr : Nat
  fs : String → Bool

/-- One iteration of the `Backup` command loop (lines 214-264).
`attach` and `sleep` steps are skipped entirely when the container is
not running; a `backup` step with a well-formed `src:destBase` argument
ensures the destination directory, stats the `latest` pointer (using it
as `--link-dest` when present), runs rsync, and on success rotates the
`latest` pointer; an rsync failure sets `hasError` and the loop
continues. -/
def backupStep (env : Env) (id tsp : String) (isRunning : Bool)
    (acc : BackupAcc) (cmd : CmdConfig) : BackupAcc :=
  if cmd.type = "attach" then
    if isRunning then
      { acc with tr := acc.tr ++ [Event.sendCommand id (cmd.arg ++ "\n")] }
    else acc
  else if cmd.type = "sleep" then
    if isRunning then
      match env.parseDuration cmd.arg with
      | some d => { acc with tr := acc.tr ++ [Event.sleepFor d] }
      | none => acc
    else acc
  else if cmd.type = "backup" then
    match splitN2Colon cmd.arg with
    | none => acc
    | some sd =>
      let src := sd.1
      let destBase := sd.2
      let latest := destBase ++ "/latest"
      let link := if acc.fs latest then some latest else none
      let ok := env.rsyncOk acc.ctr
      let tr := acc.tr ++ [Event.mkdirAll destBase, Event.statPath latest,
        Event.rsync (src ++ "/") (destBase ++ "/" ++ tsp) link ok]
      if ok then
        { tr := tr ++ [Event.removePath latest, Event.symlink tsp latest]
          hasError := acc.hasError
          ctr := acc.ctr + 1
          fs := fun p => if p = latest then true else acc.fs p }
      else
        { tr := tr, hasError := true, ctr := acc.ctr + 1, fs := acc.fs }
  else acc

/-- Embeds `Manager.Backup` (lines 198-271): fails for an unconfigured
server, computes the running state from one inspect call, folds the
backup command list through `backupStep` with the timestamp `tsp`, and
returns a single partial-failure error when any rsync failed. -/
def Manager.Backup (cfg : Config) (env : Env) (id tsp : String) :
    Option String × List Event :=
  match cfg.lookupServer id with
  | none => (some ("server " ++ id ++ " not found in config"), [])
  | some server =>
    let isRunning := isFoundRunning env.inspect
    let acc := server.commands.backup.foldl (backupStep env id tsp isRunning)
      { tr := [Event.containerInspect id], hasError := false, ctr := 0,
        fs := env.pathExists }
    (if acc.hasError then some "backup failed partially" else none,
      acc.tr)

/-- Accumulator of the `Restore` step loop. -/
structure RestoreAcc where
  tr : List Event
  hasError : Bool
  ctr : Nat

/-- One iteration of the `Restore` command loop (lines 289-312) over a
generation directory `genDir`: non-backup steps and malformed arguments
are skipped; a missing generation directory is logged and skipped;
otherwise the generation is mirrored back onto the source and an rsync
failure accumulates into `hasError`. -/
def restoreStep (env : Env) (genDirOf : String → String)
    (acc : RestoreAcc) (cmd : CmdConfig) : RestoreAcc :=
  if cmd.type = "backup" then
    match splitN2Colon cmd.arg with
    | none => acc
    | some sd =>
      let src := sd.1
      let genDir := genDirOf sd.2
      let tr := acc.tr ++ [Event.statPath genDir]
      if env.pathExists genDir then
        let ok := env.rsyncOk acc.ctr
        { tr := tr ++ [Event.rsync (genDir ++ "/") src none ok]
          hasError := acc.hasError || !ok
          ctr := acc.ctr + 1 }
      else { acc with tr := tr }
  else acc

/-- Embeds `Manager.Restore` (lines 275-319): fails for an unconfigured
server; refuses with a conflict error, before any file operation, while
the container is running; otherwise mirrors each backup step's `latest`
generation back onto its source, skipping missing generations and
accumulating copy failures into one partial-failure error. -/
def Manager.Restore (cfg : Config) (env : Env) (id : String) :
    Option String × List Event :=
  match cfg.lookupServer id with
  | none => (some ("server " ++ id ++ " not found in config"), [])
  | some server =>
    if isFoundRunning env.inspect then
      (some "container is running. please stop it before restore",
        [Event.containerInspect id])
    else
      let acc := server.commands.backup.foldl
        (restoreStep env fun destBase => destBase ++ "/latest")
        { tr := [Event.containerInspect id], hasError := false, ctr := 0 }
      (if acc.hasError then some "restore failed partially" else none,
        acc.tr)

/-- Modelled from the spec: the generation-taking
`Manager.Restore(ctx, serverName, generation string)` of the current
container package.  That revision is not under `src` —
`src/internal/container/container.go` holds superseded revisions whose
`Restore` takes no generation argument, while the current callers in
`src` (`internal/discord/bot.go` line 524 and
`internal/api/handlers_containers.go` line 262, and
`container.ActionRemove` at `internal/discord/bot.go` line 646) require
the newer package.  Following the spec's words: it fails fast when
`generation` is empty, before any engine call or file operation;
refuses to run while the container is running; for each backup-typed
step it resolves `src:destBase`, locates `destBase/<generation>`,
mirrors it back onto the source with deletion, skips a missing
generation directory, and accumulates copy failures into one
partial-failure error. -/
def Manager.RestoreGen (cfg : Config) (env : Env) (id generation : String) :
    Option String × List Event :=
  if generation = "" then (some "generation is required", [])
  else
    match cfg.lookupServer id with
    | none => (some ("server " ++ id ++ " not found in config"), [])
    | some server =>
      if isFoundRunning env.inspect then
        (some "container is running. please stop it before restore",
          [Event.containerInspect id])
      else
        let acc := server.commands.backup.foldl
          (restoreStep env fun destBase => destBase ++ "/" ++ generation)
          { tr := [Event.containerInspect id], hasError := false, ctr := 0 }
        (if acc.hasError then some "restore failed partially"
         else none, acc.tr)

/-!
## Virtual filesystem resolver

Embeds `Handler.MapPath` of `src/internal/vfs/vfs.go` (lines 31-81).
`path/filepath` helpers are embedded by their documented lexical
semantics on `/`-separated paths: `Clean` processes segments (dropping
empty and `.` segments, cancelling `..` against a preceding segment,
keeping leading `..` only in relative paths, and yielding `.` for an
empty result), `Join` concatenates non-empty elements and cleans.  The
call `filepath.Rel(parts[1], strings.Join(parts[1:], "/"))` is embedded
specialised to its actual argument shape: the target starts with the
base segment, so `Rel` strips it and returns the remainder, or `.` when
nothing remains.
-/

/-- Segment processing loop of `filepath.Clean`. -/
def cleanSegsAux (rooted : Bool) : List String → List String → List String
  | [], acc => acc.reverse
  | s :: rest, acc =>
    if s = "" ∨ s = "." then cleanSegsAux rooted rest acc
    else if s = ".." then
      match acc with
      | a :: tl =>
        if a = ".." then cleanSegsAux rooted rest (s :: a :: tl)
        else cleanSegsAux rooted rest tl
      | [] =>
        if rooted then cleanSegsAux rooted rest []
        else cleanSegsAux rooted rest [".."]
    else cleanSegsAux rooted rest (s :: acc)

/-- Embeds Go `path/filepath.Clean` on `/`-separated paths. -/
def clean (path : String) : String :=
  if path = "" then "."
  else
    let rooted := path.data.head? = some '/'
    let segs := cleanSegsAux rooted (splitStr '/' path) []
    let s := joinStr '/' segs
    if rooted then ofChars ( '/' :: s.data)
    else if s = "" then "." else s

/-- Embeds Go `path/filepath.Join` on two elements: empty elements are
ignored and the concatenation is cleaned; all-empty input yields the
empty string. -/
def joinPath (a b : String) : String :=
  if a = "" ∧ b = "" then ""
  else if a = "" then clean b
  else if b = "" then clean a
  else clean (a ++ "/" ++ b)

/-- The segment list `MapPath` computes at lines 32-33:
`strings.Split(strings.Trim(filepath.Clean(path), "/"), "/")`. -/
def vfsParts (path : String) : List String :=
  splitStr '/' (trimBoth '/' (clean path))

/-- One live bind mount reported by `ContainerInspect`. -/
structure Mount where
  source : String
  destination : String
deriving DecidableEq

/-- Result of `MapPath`: the two sentinel errors `ErrVfsRoot` and
`ErrVfsContainerRoot`, a resolved real host path, `os.ErrPermission`,
or `os.ErrNotExist`. -/
inductive MapResult
  | vfsRoot
  | vfsContainerRoot
  | real (p : String)
  | errPermission
  | errNotExist
deriving DecidableEq

/-- Embeds `Handler.MapPath` (lines 31-81).  `mounts` is the engine's
answer to the `ContainerInspect` call of line 65 (`none` models an
inspect error).  The path is cleaned, trimmed of slashes and split; an
empty segment list (only reachable as `[""]`) is the root sentinel; the
first segment is the container name, guarded by the user's
`container.read` permission and by existence in the config; a
one-segment path is the container-root sentinel; otherwise the first
live mount whose trimmed destination equals the second segment maps the
remaining segments onto its host source. -/
def MapPath (cfg : Config) (mounts : Option (List Mount))
    (username path : String) : MapResult :=
  match vfsParts path with
  | [] => MapResult.vfsRoot
  | containerName :: restParts =>
    if containerName = "" ∧ restParts = [] then MapResult.vfsRoot
    else
      match cfg.lookupUser username with
      | none => MapResult.errPermission
      | some user =>
        if !(user.hasPermission containerName PermContainerRead) then
          MapResult.errPermission
        else if (cfg.lookupServer containerName).isNone then MapResult.errNotExist
        else
          match restParts with
          | [] => MapResult.vfsContainerRoot
          | targetSubPath :: subRest =>
            match mounts with
            | none => MapResult.errNotExist
            | some ms =>
              match ms.find? (fun m => trimBoth '/' m.destination == targetSubPath) with
              | some m =>
                MapResult.real (joinPath m.source
                  (if subRest = [] then "." else joinStr '/' subRest))
              | none => MapResult.errNotExist

/-!
## Trace observations and concrete test fixtures

Predicates over trace events used to state the claims, and the concrete
configurations, environments and mounts used by witnesses and
counterexamples.
-/

/-- Is this event a write to the container's stdin? -/
def isSendEvent : Event → Bool
  | Event.sendCommand _ _ => true
  | _ => false

/-- Is this event a blocking wait (`time.Sleep`)? -/
def isSleepEvent : Event → Bool
  | Event.sleepFor _ => true
  | _ => false

/-- Is this event an rsync invocation? -/
def isRsyncEvent : Event → Bool
  | Event.rsync _ _ _ _ => true
  | _ => false

/-- Is this event a failed rsync invocation? -/
def isRsyncFail : Event → Bool
  | Event.rsync _ _ _ false => true
  | _ => false

/-- Is this event a successful rsync invocation? -/
def isRsyncOk : Event → Bool
  | Event.rsync _ _ _ true => true
  | _ => false

/-- Is this event a `latest`-pointer rotation (`os.Symlink`)? -/
def isSymlinkEvent : Event → Bool
  | Event.symlink _ _ => true
  | _ => false

/-- The copy endpoints of an rsync event. -/
def rsyncEnd : Event → Option (String × String)
  | Event.rsync src dst _ _ => some (src, dst)
  | _ => none

/-- A backup-typed step whose `src:destBase` argument is well formed. -/
def isWfBackupStep (c : CmdConfig) : Bool :=
  c.type == "backup" && (splitN2Colon c.arg).isSome

/-- The rsync endpoints `Backup` produces for one command-list entry
with timestamp `tsp`: only well-formed backup-typed steps copy, from
`src/` to `destBase/<timestamp>`. -/
def backupEndpoint (tsp : String) (c : CmdConfig) : Option (String × String) :=
  if c.type = "backup" then
    (splitN2Colon c.arg).map fun sd => (sd.1 ++ "/", sd.2 ++ "/" ++ tsp)
  else none

/-- The rsync endpoints the restore loop produces for one command-list
entry: only well-formed backup-typed steps whose generation directory
`genDirOf destBase` exists copy, from that directory back onto the
source. -/
def restoreEndpoint (env : Env) (genDirOf : String → String)
    (c : CmdConfig) : Option (String × String) :=
  if c.type = "backup" then
    (splitN2Colon c.arg).bind fun sd =>
      if env.pathExists (genDirOf sd.2) then some (genDirOf sd.2 ++ "/", sd.1)
      else none
  else none

/-- Fixture: a user whose only permission entry is
`{"*": ["container.read"]}`. -/
def userStar : UserConfig :=
  { discord := "", password := "p", permissions := some [("*", ["container.read"])] }

/-- Fixture: a minimal startable server definition. -/
def srvPlain : ServerConfig :=
  { image := "alpine", network := { mode := "", mapping := [] }, mount := [],
    commands := { start := none, stop := [], backup := [] } }

/-- Fixture: a server with an attach, a sleep and one backup step. -/
def srvSteps : ServerConfig :=
  { image := "alpine", network := { mode := "", mapping := [] }, mount := [],
    commands :=
      { start := none, stop := [],
        backup := [ { type := "attach", arg := "save-all" },
          { type := "sleep", arg := "5s" },
          { type := "backup", arg := "/data:/backups/mc1" } ] } }

/-- Fixture: an unmanaged server (two backup steps, no image). -/
def srvTwoSteps : ServerConfig :=
  { image := "", network := { mode := "", mapping := [] }, mount := [],
    commands :=
      { start := none, stop := [],
        backup := [ { type := "backup", arg := "/a:/ba" },
          { type := "backup", arg := "/b:/bb" } ] } }

/-- Fixture: configuration holding the three servers and the wildcard
user. -/
def cfgFix : Config :=
  { users := [("alice", userStar)],
    servers := [("serverA", srvPlain), ("mc1", srvSteps), ("two", srvTwoSteps)] }

/-- Fixture: engine sees a stopped container; everything succeeds; no
paths exist. -/
def envStopped : Env :=
  { inspect := InspectResult.found false, createOk := true, startOk := true,
    rsyncOk := fun _ => true, pathExists := fun _ => false,
    parseDuration := fun _ => some 5 }

/-- Fixture: engine sees a running container. -/
def envRunning : Env :=
  { inspect := InspectResult.found true, createOk := true, startOk := true,
    rsyncOk := fun _ => true, pathExists := fun _ => false,
    parseDuration := fun _ => some 5 }

/-- Fixture: stopped container, every path exists, and the first rsync
run fails while the second succeeds. -/
def envHalf : Env :=
  { inspect := InspectResult.found false, createOk := true, startOk := true,
    rsyncOk := fun n => n == 1, pathExists := fun _ => true,
    parseDuration := fun _ => some 5 }

/-- Fixture: one live mount, `/data` backed by `/host/data`. -/
def mountData : Mount := { source := "/host/data", destination := "/data" }

/-- Fixture: a config-store state over the fixture configuration. -/
def loadedFix : LoadedState := { config := cfgFix, lastLoaded := 3 }

/-!
## Properties of the hierarchical permission match
-/

/-- The segment loop grants a token against itself. -/
theorem loopMatch_self : ∀ xs : List String, loopMatch xs xs = true
  | [] => rfl
  | x :: xs => by
    by_cases hx : x = "*" <;> simp [loopMatch, hx, loopMatch_self xs]

/-- The two early-return branches of `matchRecursive` agree with the
segment loop, so the whole match is the segment loop on the dot-split
tokens. -/
theorem matchRecursive_eq_loopMatch (g r : String) :
    matchRecursive g r = loopMatch (splitStr '.' g) (splitStr '.' r) := by
  unfold matchRecursive
  by_cases hg : g = "*"
  · subst hg
    have hsplit : splitStr '.' "*" = ["*"] := by decide
    rw [hsplit]
    simp [loopMatch]
  · by_cases hgr : g = r
    · subst hgr
      simp [hg, loopMatch_self]
    · simp [hg, hgr]

/-- A `*` segment grants regardless of any remaining required
segments. -/
theorem loopMatch_wildcard : ∀ (pre rest reqTail : List String),
    loopMatch (pre ++ "*" :: rest) (pre ++ reqTail) = true
  | [], rest, reqTail => by simp [loopMatch]
  | p :: ps, rest, reqTail => by
    by_cases hp : p = "*" <;>
      simp [loopMatch, hp, loopMatch_wildcard ps rest reqTail]

/-- A mismatched literal segment denies when no earlier segment was a
wildcard. -/
theorem loopMatch_mismatch : ∀ (pre : List String) (u v : String)
    (us vs : List String), u ≠ "*" → u ≠ v → "*" ∉ pre →
    loopMatch (pre ++ u :: us) (pre ++ v :: vs) = false
  | [], u, v, us, vs, hu, huv, _ => by simp [loopMatch, hu, huv]
  | p :: ps, u, v, us, vs, hu, huv, hpre => by
    have hp : p ≠ "*" := fun h => hpre (h ▸ List.mem_cons_self p ps)
    have hps : "*" ∉ ps := fun h => hpre (List.mem_cons_of_mem p h)
    simp [loopMatch, hp, loopMatch_mismatch ps u v us vs hu huv hps]

/-- A granted token exhausted before the required token, with no
wildcard segment, denies. -/
theorem loopMatch_short : ∀ (us vs : List String),
    us.length < vs.length → "*" ∉ us → loopMatch us vs = false
  | [], vs, hlen, _ => by
    cases vs with
    | nil => simp at hlen
    | cons v vs => simp [loopMatch]
  | u :: us, vs, hlen, hstar => by
    have hu : u ≠ "*" := fun h => hstar (h ▸ List.mem_cons_self u us)
    have hus : "*" ∉ us := fun h => hstar (List.mem_cons_of_mem u h)
    cases vs with
    | nil => simp at hlen
    | cons v vs =>
      by_cases huv : u = v
      · subst huv
        simp [loopMatch, hu, loopMatch_short us vs (by simpa using hlen) hus]
      · simp [loopMatch, hu, huv]

/-- C3.  The hierarchical permission match satisfies: a granted literal
`*` matches anything; any token matches itself; `container.*` matches
`container.execute.start`; `container.execute` does not match
`container.execute.start` and vice versa; in general a `*` segment in
the granted token grants regardless of remaining required segments, a
mismatched literal segment (with no earlier wildcard) denies, and a
granted token exhausted before the required token without a wildcard
denies. -/
theorem matchRecursive_hierarchy :
    (∀ r, matchRecursive "*" r = true) ∧
    (∀ t, matchRecursive t t = true) ∧
    matchRecursive "container.*" "container.execute.start" = true ∧
    matchRecursive "container.execute" "container.execute.start" = false ∧
    matchRecursive "container.execute.start" "container.execute" = false ∧
    (∀ g r pre rest reqTail, splitStr '.' g = pre ++ "*" :: rest →
      splitStr '.' r = pre ++ reqTail → matchRecursive g r = true) ∧
    (∀ g r pre u v us vs, splitStr '.' g = pre ++ u :: us →
      splitStr '.' r = pre ++ v :: vs → u ≠ "*" → u ≠ v → "*" ∉ pre →
      matchRecursive g r = false) ∧
    (∀ g r, (splitStr '.' g).length < (splitStr '.' r).length →
      "*" ∉ splitStr '.' g → matchRecursive g r = false) := by
  refine ⟨fun r => by simp [matchRecursive], fun t => by simp [matchRecursive],
    by decide, by decide, by decide, ?_, ?_, ?_⟩
  · intro g r pre rest reqTail hg hr
    rw [matchRecursive_eq_loopMatch, hg, hr, loopMatch_wildcard]
  · intro g r pre u v us vs hg hr hu huv hpre
    rw [matchRecursive_eq_loopMatch, hg, hr, loopMatch_mismatch pre u v us vs hu huv hpre]
  · intro g r hlen hstar
    rw [matchRecursive_eq_loopMatch, loopMatch_short _ _ hlen hstar]

/-- Witness for C3: the general clauses of `matchRecursive_hierarchy`
evaluated at concrete tokens. -/
theorem matchRecursive_hierarchy_witness :
    matchRecursive "*" "file.write" = true ∧
    matchRecursive "container.read" "container.read" = true ∧
    matchRecursive "container.a.*" "container.a.b.c" = true ∧
    matchRecursive "container.a.c" "container.b.c" = false ∧
    matchRecursive "a.b" "a.b.c.d" = false :=
  ⟨matchRecursive_hierarchy.1 "file.write",
    matchRecursive_hierarchy.2.1 "container.read",
    matchRecursive_hierarchy.2.2.2.2.2.1 "container.a.*" "container.a.b.c"
      ["container", "a"] [] ["b", "c"] (by decide) (by decide),
    matchRecursive_hierarchy.2.2.2.2.2.2.1 "container.a.c" "container.b.c"
      ["container"] "a" "b" ["c"] ["c"] (by decide) (by decide)
      (by decide) (by decide) (by decide),
    matchRecursive_hierarchy.2.2.2.2.2.2.2 "a.b" "a.b.c.d" (by decide) (by decide)⟩

/-- C9.  `HasPermission` grants iff some entry under the exact server
key hierarchically matches the required permission or, failing that,
some entry under the `"*"` key does; it denies whenever the permission
map is absent; and a user with `{"*": ["container.read"]}` is granted
`container.read` on every server name but denied `container.write`. -/
theorem hasPermission_lookup_rule :
    (∀ (u : UserConfig) (s req : String), u.permissions = none →
      u.hasPermission s req = false) ∧
    (∀ (u : UserConfig) (m : List (String × List String)) (s req : String),
      u.permissions = some m →
      (u.hasPermission s req = true ↔
        (∃ p ∈ lookupPerms m s, matchRecursive p req = true) ∨
        (∃ p ∈ lookupPerms m "*", matchRecursive p req = true))) ∧
    (∀ s, userStar.hasPermission s "container.read" = true ∧
      userStar.hasPermission s "container.write" = false) := by
  refine ⟨?_, ?_, ?_⟩
  · intro u s req h
    simp [UserConfig.hasPermission, h]
  · intro u m s req h
    have hb : u.hasPermission s req =
        (checkPermission (lookupPerms m s) req ||
          checkPermission (lookupPerms m "*") req) := by
      unfold UserConfig.hasPermission
      rw [h]
      cases hc1 : checkPermission (lookupPerms m s) req <;>
        cases hc2 : checkPermission (lookupPerms m "*") req <;> simp [hc1, hc2]
    rw [hb]
    simp [checkPermission, List.any_eq_true]
  · intro s
    by_cases hs : s = "*"
    · subst hs
      exact ⟨by decide, by decide⟩
    · have hbeq : (s == "*") = false := by simpa using hs
      constructor <;>
        · simp only [userStar, UserConfig.hasPermission, lookupPerms,
            List.lookup, hbeq]
          decide

/-- Witness for C9: its clauses evaluated at concrete users and server
names. -/
theorem hasPermission_lookup_rule_witness :
    UserConfig.hasPermission
      { discord := "", password := "", permissions := none } "s1" "container.read" = false ∧
    (userStar.hasPermission "s1" "container.read" = true ↔
      (∃ p ∈ lookupPerms [("*", ["container.read"])] "s1",
        matchRecursive p "container.read" = true) ∨
      (∃ p ∈ lookupPerms [("*", ["container.read"])] "*",
        matchRecursive p "container.read" = true)) ∧
    userStar.hasPermission "s1" "container.read" = true ∧
    userStar.hasPermission "s1" "container.write" = false :=
  ⟨hasPermission_lookup_rule.1 _ "s1" "container.read" rfl,
    hasPermission_lookup_rule.2.1 userStar _ "s1" "container.read" rfl,
    (hasPermission_lookup_rule.2.2 "s1").1,
    (hasPermission_lookup_rule.2.2 "s1").2⟩

/-- C6.  When `Reload` fails to open or to parse the configuration
file, the snapshot and the recorded last-load time are left exactly as
they were, every subsequent `Get` returns the last known good config,
and (the Go `Reload` having no return value) no error reaches
callers. -/
theorem reload_failure_keeps_snapshot (s : LoadedState) (o : ReloadOutcome)
    (h : o = ReloadOutcome.openError ∨ o = ReloadOutcome.parseError) :
    s.reload o = s ∧ ∀ st, (s.get st o).1 = s.config := by
  have hre : s.reload o = s := by
    rcases h with h | h <;> subst h <;> rfl
  refine ⟨hre, ?_⟩
  intro st
  unfold LoadedState.get
  cases st with
  | none => rfl
  | some t => by_cases hlt : s.lastLoaded < t <;> simp [hlt, hre]

/-- Witness for C6: a failed reload over the fixture state changes
nothing and a subsequent get returns the old snapshot. -/
theorem reload_failure_keeps_snapshot_witness :
    loadedFix.reload ReloadOutcome.openError = loadedFix ∧
    (loadedFix.get (some 5) ReloadOutcome.openError).1 = loadedFix.config ∧
    (loadedFix.get (some 5) ReloadOutcome.parseError).1 = loadedFix.config :=
  ⟨(reload_failure_keeps_snapshot loadedFix _ (Or.inl rfl)).1,
    (reload_failure_keeps_snapshot loadedFix _ (Or.inl rfl)).2 (some 5),
    (reload_failure_keeps_snapshot loadedFix _ (Or.inr rfl)).2 (some 5)⟩

/-- C10.  `Start` on a server name absent from the configuration, or
whose configuration has an empty image, returns nil without performing
any engine call. -/
theorem start_unknown_server_noop (cfg : Config) (env : Env) (id : String)
    (h : cfg.lookupServer id = none ∨
      ∃ server, cfg.lookupServer id = some server ∧ server.image = "") :
    Manager.Start cfg env id = (none, []) := by
  unfold Manager.Start
  rcases h with h | ⟨server, h, himg⟩
  · rw [h]
  · rw [h]
    simp [himg]

/-- Witness for C10: an unconfigured name and an image-less server both
start as silent no-ops. -/
theorem start_unknown_server_noop_witness :
    Manager.Start cfgFix envStopped "nosuch" = (none, []) ∧
    Manager.Start cfgFix envStopped "two" = (none, []) :=
  ⟨start_unknown_server_noop _ _ _ (Or.inl (by decide)),
    start_unknown_server_noop _ _ _ (Or.inr ⟨srvTwoSteps, by decide, rfl⟩)⟩

/-- Counterexample to C1: for a configured server whose container
exists and is stopped, `Start` succeeds (no conflict error) and its
trace contains the remove, create and start engine calls the claim
rules out. -/
theorem start_existing_removes_cex :
    (Manager.Start cfgFix envStopped "serverA").1 = none ∧
    Event.containerRemove "serverA" ∈ (Manager.Start cfgFix envStopped "serverA").2 ∧
    Event.containerCreate "serverA" (buildCreateSpec srvPlain) ∈
      (Manager.Start cfgFix envStopped "serverA").2 ∧
    Event.containerStart "serverA" ∈ (Manager.Start cfgFix envStopped "serverA").2 := by
  decide

/-- C1 as amended.  When the container already exists, `Start` does not
fail with a conflict: an existing stopped container is first removed,
an existing running one is left in place, and in both cases `Start`
proceeds to the create/start engine calls, whose outcome it returns. -/
theorem start_existing_container (cfg : Config) (env : Env) (id : String)
    (server : ServerConfig) (r : Bool)
    (h1 : cfg.lookupServer id = some server) (h2 : server.image ≠ "")
    (h3 : env.inspect = InspectResult.found r) :
    Manager.Start cfg env id =
      createStart env id (buildCreateSpec server)
        (if r then [Event.containerInspect id]
         else [Event.containerInspect id, Event.containerRemove id]) := by
  unfold Manager.Start
  rw [h1, h3]
  simp [h2]
  cases r <;> simp

/-- Witness for C1 (amended): the stopped-container case evaluated over
the fixtures. -/
theorem start_existing_container_witness :
    cfgFix.lookupServer "serverA" = some srvPlain ∧
    srvPlain.image ≠ "" ∧ envStopped.inspect = InspectResult.found false ∧
    Manager.Start cfgFix envStopped "serverA" =
      createStart envStopped "serverA" (buildCreateSpec srvPlain)
        [Event.containerInspect "serverA", Event.containerRemove "serverA"] := by
  refine ⟨by decide, by decide, rfl, ?_⟩
  have h := start_existing_container cfgFix envStopped "serverA" srvPlain false
    (by decide) (by decide) rfl
  simpa using h

/-- C4.  `Restore` on a configured server whose container is running
fails with the conflict error and performs no file operation: its whole
trace is the single inspect engine call. -/
theorem restore_running_conflict (cfg : Config) (env : Env) (id : String)
    (server : ServerConfig) (h1 : cfg.lookupServer id = some server)
    (h2 : env.inspect = InspectResult.found true) :
    Manager.Restore cfg env id =
      (some "container is running. please stop it before restore",
        [Event.containerInspect id]) := by
  unfold Manager.Restore
  rw [h1]
  simp [isFoundRunning, h2]

/-- Witness for C4: restoring the fixture server while running. -/
theorem restore_running_conflict_witness :
    cfgFix.lookupServer "mc1" = some srvSteps ∧
    envRunning.inspect = InspectResult.found true ∧
    Manager.Restore cfgFix envRunning "mc1" =
      (some "container is running. please stop it before restore",
        [Event.containerInspect "mc1"]) :=
  ⟨by decide, rfl,
    restore_running_conflict cfgFix envRunning "mc1" srvSteps (by decide) rfl⟩

/-!
## Properties of the backup step loop
-/

/-- An event carries rsync endpoints exactly when it is an rsync
event. -/
theorem rsyncEnd_isSome (e : Event) : (rsyncEnd e).isSome = isRsyncEvent e := by
  cases e <;> rfl

/-- Counting rsync events equals measuring the endpoint projection. -/
theorem length_filterMap_rsyncEnd :
    ∀ tr : List Event, (tr.filterMap rsyncEnd).length = tr.countP isRsyncEvent
  | [] => rfl
  | e :: tr => by
    cases e <;>
      simp [rsyncEnd, isRsyncEvent, length_filterMap_rsyncEnd tr, List.countP_cons]

/-- A command-list entry yields backup endpoints exactly when it is a
well-formed backup-typed step. -/
theorem backupEndpoint_isSome (tsp : String) (c : CmdConfig) :
    (backupEndpoint tsp c).isSome = isWfBackupStep c := by
  unfold backupEndpoint isWfBackupStep
  by_cases h : c.type = "backup"
  · simp [h]
  · simp [h]

/-- Measuring the endpoints produced by a command list counts its
well-formed backup-typed steps. -/
theorem length_filterMap_backupEndpoint (tsp : String) :
    ∀ cmds : List CmdConfig,
      (cmds.filterMap (backupEndpoint tsp)).length = cmds.countP isWfBackupStep
  | [] => rfl
  | c :: cs => by
    have h := backupEndpoint_isSome tsp c
    cases hc : backupEndpoint tsp c <;>
      rw [hc] at h <;>
      simp [hc, List.countP_cons, ← h, length_filterMap_backupEndpoint tsp cs]

/-- One backup step appends no stdin write and no wait when the
container is not running. -/
theorem backupStep_notRunning (env : Env) (id tsp : String) (acc : BackupAcc)
    (c : CmdConfig) :
    ((backupStep env id tsp false acc c).tr).countP isSendEvent =
      acc.tr.countP isSendEvent ∧
    ((backupStep env id tsp false acc c).tr).countP isSleepEvent =
      acc.tr.countP isSleepEvent := by
  unfold backupStep
  by_cases h1 : c.type = "attach"
  · simp [h1]
  · by_cases h2 : c.type = "sleep"
    · simp [h1, h2]
    · by_cases h3 : c.type = "backup"
      · cases hsd : splitN2Colon c.arg with
        | none => simp [h1, h2, h3, hsd]
        | some sd =>
          cases hok : env.rsyncOk acc.ctr <;>
            simp [h1, h2, h3, hsd, hok, List.countP_append, List.countP_cons,
              isSendEvent, isSleepEvent]
      · simp [h1, h2, h3]

/-- The whole backup loop over a stopped container appends no stdin
write and no wait. -/
theorem backup_foldl_notRunning (env : Env) (id tsp : String) :
    ∀ (cmds : List CmdConfig) (acc : BackupAcc),
      ((cmds.foldl (backupStep env id tsp false) acc).tr).countP isSendEvent =
        acc.tr.countP isSendEvent ∧
      ((cmds.foldl (backupStep env id tsp false) acc).tr).countP isSleepEvent =
        acc.tr.countP isSleepEvent
  | [], _ => ⟨rfl, rfl⟩
  | c :: cs, acc => by
    rw [List.foldl_cons]
    have ih := backup_foldl_notRunning env id tsp cs (backupStep env id tsp false acc c)
    have hs := backupStep_notRunning env id tsp acc c
    exact ⟨ih.1.trans hs.1, ih.2.trans hs.2⟩

/-- One backup step appends exactly the rsync endpoints of its
command-list entry, whatever the running state, filesystem and rsync
outcomes. -/
theorem backupStep_endpoints (env : Env) (id tsp : String) (run : Bool)
    (acc : BackupAcc) (c : CmdConfig) :
    ((backupStep env id tsp run acc c).tr).filterMap rsyncEnd =
      acc.tr.filterMap rsyncEnd ++ (backupEndpoint tsp c).toList := by
  unfold backupStep backupEndpoint
  by_cases h1 : c.type = "attach"
  · have h1b : ¬ c.type = "backup" := by simp [h1]
    cases run <;> simp [h1, h1b, rsyncEnd, List.filterMap_append]
  · by_cases h2 : c.type = "sleep"
    · have h2b : ¬ c.type = "backup" := by simp [h2]
      cases run with
      | false => simp [h1, h2, h2b]
      | true =>
        cases hd : env.parseDuration c.arg <;>
          simp [h1, h2, h2b, hd, rsyncEnd, List.filterMap_append]
    · by_cases h3 : c.type = "backup"
      · cases hsd : splitN2Colon c.arg with
        | none => simp [h1, h2, h3, hsd]
        | some sd =>
          cases hok : env.rsyncOk acc.ctr <;>
            simp [h1, h2, h3, hsd, hok, rsyncEnd, List.filterMap_append]
      · simp [h1, h2, h3]

/-- The whole backup loop appends exactly the rsync endpoints of the
command list: every well-formed backup-typed step is attempted,
independently of earlier failures. -/
theorem backup_foldl_endpoints (env : Env) (id tsp : String) (run : Bool) :
    ∀ (cmds : List CmdConfig) (acc : BackupAcc),
      ((cmds.foldl (backupStep env id tsp run) acc).tr).filterMap rsyncEnd =
        acc.tr.filterMap rsyncEnd ++ cmds.filterMap (backupEndpoint tsp)
  | [], acc => by simp
  | c :: cs, acc => by
    rw [List.foldl_cons, backup_foldl_endpoints env id tsp run cs,
      backupStep_endpoints env id tsp run acc c, List.filterMap_cons]
    cases backupEndpoint tsp c <;> simp

/-- One backup step preserves the correspondence between the `hasError`
flag and the presence of a failed rsync in the trace. -/
theorem backupStep_errorInv (env : Env) (id tsp : String) (run : Bool)
    (acc : BackupAcc) (c : CmdConfig)
    (h : acc.hasError = acc.tr.any isRsyncFail) :
    (backupStep env id tsp run acc c).hasError =
      ((backupStep env id tsp run acc c).tr).any isRsyncFail := by
  unfold backupStep
  by_cases h1 : c.type = "attach"
  · cases run <;> simp [h1, h, List.any_append, isRsyncFail]
  · by_cases h2 : c.type = "sleep"
    · cases run with
      | false => simp [h1, h2, h]
      | true =>
        cases hd : env.parseDuration c.arg <;>
          simp [h1, h2, hd, h, List.any_append, isRsyncFail]
    · by_cases h3 : c.type = "backup"
      · cases hsd : splitN2Colon c.arg with
        | none => simp [h1, h2, h3, hsd, h]
        | some sd =>
          cases hok : env.rsyncOk acc.ctr <;>
            simp [h1, h2, h3, hsd, hok, h, List.any_append, isRsyncFail]
      · simp [h1, h2, h3, h]

/-- Loop version of `backupStep_errorInv`. -/
theorem backup_foldl_errorInv (env : Env) (id tsp : String) (run : Bool) :
    ∀ (cmds : List CmdConfig) (acc : BackupAcc),
      acc.hasError = acc.tr.any isRsyncFail →
      (cmds.foldl (backupStep env id tsp run) acc).hasError =
        ((cmds.foldl (backupStep env id tsp run) acc).tr).any isRsyncFail
  | [], _, h => h
  | c :: cs, acc, h => by
    rw [List.foldl_cons]
    exact backup_foldl_errorInv env id tsp run cs _
      (backupStep_errorInv env id tsp run acc c h)

/-- One backup step preserves the correspondence between
`latest`-pointer rotations and successful rsync runs in the trace. -/
theorem backupStep_rotationInv (env : Env) (id tsp : String) (run : Bool)
    (acc : BackupAcc) (c : CmdConfig)
    (h : acc.tr.countP isSymlinkEvent = acc.tr.countP isRsyncOk) :
    ((backupStep env id tsp run acc c).tr).countP isSymlinkEvent =
      ((backupStep env id tsp run acc c).tr).countP isRsyncOk := by
  unfold backupStep
  by_cases h1 : c.type = "attach"
  · cases run <;> simp [h1, h, List.countP_append, List.countP_cons,
      isSymlinkEvent, isRsyncOk]
  · by_cases h2 : c.type = "sleep"
    · cases run with
      | false => simp [h1, h2, h]
      | true =>
        cases hd : env.parseDuration c.arg <;>
          simp [h1, h2, hd, h, List.countP_append, List.countP_cons,
            isSymlinkEvent, isRsyncOk]
    · by_cases h3 : c.type = "backup"
      · cases hsd : splitN2Colon c.arg with
        | none => simp [h1, h2, h3, hsd, h]
        | some sd =>
          cases hok : env.rsyncOk acc.ctr <;>
            simp [h1, h2, h3, hsd, hok, h, List.countP_append, List.countP_cons,
              isSymlinkEvent, isRsyncOk]
      · simp [h1, h2, h3, h]

/-- Loop version of `backupStep_rotationInv`. -/
theorem backup_foldl_rotationInv (env : Env) (id tsp : String) (run : Bool) :
    ∀ (cmds : List CmdConfig) (acc : BackupAcc),
      acc.tr.countP isSymlinkEvent = acc.tr.countP isRsyncOk →
      ((cmds.foldl (backupStep env id tsp run) acc).tr).countP isSymlinkEvent =
        ((cmds.foldl (backupStep env id tsp run) acc).tr).countP isRsyncOk
  | [], _, h => h
  | c :: cs, acc, h => by
    rw [List.foldl_cons]
    exact backup_foldl_rotationInv env id tsp run cs _
      (backupStep_rotationInv env id tsp run acc c h)

/-- C7.  `Backup` over a container that is not currently running sends
no stdin command and performs no wait — every attach-typed and
sleep-typed step is skipped — while every (well-formed) backup-typed
step still runs its copy; under the well-formedness of all backup
arguments that is every backup-typed step. -/
theorem backup_stopped_skips (cfg : Config) (env : Env) (id tsp : String)
    (server : ServerConfig) (h1 : cfg.lookupServer id = some server)
    (h2 : isFoundRunning env.inspect = false) :
    (Manager.Backup cfg env id tsp).2.countP isSendEvent = 0 ∧
    (Manager.Backup cfg env id tsp).2.countP isSleepEvent = 0 ∧
    (Manager.Backup cfg env id tsp).2.countP isRsyncEvent =
      server.commands.backup.countP isWfBackupStep ∧
    ((∀ c ∈ server.commands.backup, c.type = "backup" →
        (splitN2Colon c.arg).isSome = true) →
      (Manager.Backup cfg env id tsp).2.countP isRsyncEvent =
        server.commands.backup.countP fun c => c.type == "backup") := by
  simp only [Manager.Backup, h1, h2]
  have hskip := backup_foldl_notRunning env id tsp server.commands.backup
    { tr := [Event.containerInspect id], hasError := false, ctr := 0,
      fs := env.pathExists }
  have hcount : ((server.commands.backup.foldl (backupStep env id tsp false)
      { tr := [Event.containerInspect id], hasError := false, ctr := 0,
        fs := env.pathExists }).tr).countP isRsyncEvent =
      server.commands.backup.countP isWfBackupStep := by
    rw [← length_filterMap_rsyncEnd, backup_foldl_endpoints]
    simp [rsyncEnd, length_filterMap_backupEndpoint]
  refine ⟨?_, ?_, ?_, ?_⟩
  · simpa [isSendEvent] using hskip.1
  · simpa [isSleepEvent] using hskip.2
  · exact hcount
  · intro hwf
    rw [hcount]
    refine List.countP_congr fun c hc => ?_
    unfold isWfBackupStep
    constructor
    · intro h
      exact (Bool.and_eq_true _ _ ▸ h).1
    · intro h
      rw [h, Bool.true_and]
      exact hwf c hc (by simpa using h)

/-- Witness for C7: the fixture server's attach and sleep steps are
skipped while its one backup step still copies. -/
theorem backup_stopped_skips_witness :
    (Manager.Backup cfgFix envStopped "mc1" "t1").2.countP isSendEvent = 0 ∧
    (Manager.Backup cfgFix envStopped "mc1" "t1").2.countP isSleepEvent = 0 ∧
    (Manager.Backup cfgFix envStopped "mc1" "t1").2.countP isRsyncEvent =
      srvSteps.commands.backup.countP isWfBackupStep :=
  have h := backup_stopped_skips cfgFix envStopped "mc1" "t1" srvSteps
    (by decide) rfl
  ⟨h.1, h.2.1, h.2.2.1⟩

/-- C8.  `Backup` attempts every (well-formed) backup-typed step even
when an earlier copy fails — the rsync endpoints of the trace are a
function of the command list alone — later steps still rotate their
`latest` pointer exactly on success, and the single aggregate
partial-failure error is returned iff at least one copy failed. -/
theorem backup_partial_failure (cfg : Config) (env : Env) (id tsp : String)
    (server : ServerConfig) (h1 : cfg.lookupServer id = some server) :
    (Manager.Backup cfg env id tsp).2.filterMap rsyncEnd =
      server.commands.backup.filterMap (backupEndpoint tsp) ∧
    ((Manager.Backup cfg env id tsp).1 = some "backup failed partially" ↔
      (Manager.Backup cfg env id tsp).2.any isRsyncFail = true) ∧
    (Manager.Backup cfg env id tsp).2.countP isSymlinkEvent =
      (Manager.Backup cfg env id tsp).2.countP isRsyncOk := by
  simp only [Manager.Backup, h1]
  have herr := backup_foldl_errorInv env id tsp (isFoundRunning env.inspect)
    server.commands.backup
    { tr := [Event.containerInspect id], hasError := false, ctr := 0,
      fs := env.pathExists } rfl
  refine ⟨?_, ?_, ?_⟩
  · rw [backup_foldl_endpoints]
    simp [rsyncEnd]
  · rw [← herr]
    cases hE : (server.commands.backup.foldl
        (backupStep env id tsp (isFoundRunning env.inspect))
        { tr := [Event.containerInspect id], hasError := false, ctr := 0,
          fs := env.pathExists }).hasError <;> simp [hE]
  · exact backup_foldl_rotationInv env id tsp (isFoundRunning env.inspect)
      server.commands.backup _ rfl

/-- Witness for C8: over the two-step fixture server with the first
rsync failing and the second succeeding. -/
theorem backup_partial_failure_witness :
    (Manager.Backup cfgFix envHalf "two" "t2").2.filterMap rsyncEnd =
      srvTwoSteps.commands.backup.filterMap (backupEndpoint "t2") ∧
    ((Manager.Backup cfgFix envHalf "two" "t2").1 = some "backup failed partially" ↔
      (Manager.Backup cfgFix envHalf "two" "t2").2.any isRsyncFail = true) ∧
    (Manager.Backup cfgFix envHalf "two" "t2").2.countP isSymlinkEvent =
      (Manager.Backup cfgFix envHalf "two" "t2").2.countP isRsyncOk :=
  backup_partial_failure cfgFix envHalf "two" "t2" srvTwoSteps (by decide)

/-- One restore step appends exactly the rsync endpoints of its
command-list entry. -/
theorem restoreStep_endpoints (env : Env) (genDirOf : String → String)
    (acc : RestoreAcc) (c : CmdConfig) :
    ((restoreStep env genDirOf acc c).tr).filterMap rsyncEnd =
      acc.tr.filterMap rsyncEnd ++ (restoreEndpoint env genDirOf c).toList := by
  unfold restoreStep restoreEndpoint
  by_cases h1 : c.type = "backup"
  · cases hsd : splitN2Colon c.arg with
    | none => simp [h1, hsd]
    | some sd =>
      cases hex : env.pathExists (genDirOf sd.2) <;>
        simp [h1, hsd, hex, rsyncEnd, List.filterMap_append]
  · simp [h1]

/-- The whole restore loop appends exactly the endpoints of the command
list: one mirror per well-formed backup-typed step whose generation
directory exists. -/
theorem restore_foldl_endpoints (env : Env) (genDirOf : String → String) :
    ∀ (cmds : List CmdConfig) (acc : RestoreAcc),
      ((cmds.foldl (restoreStep env genDirOf) acc).tr).filterMap rsyncEnd =
        acc.tr.filterMap rsyncEnd ++ cmds.filterMap (restoreEndpoint env genDirOf)
  | [], acc => by simp
  | c :: cs, acc => by
    rw [List.foldl_cons, restore_foldl_endpoints env genDirOf cs,
      restoreStep_endpoints env genDirOf acc c, List.filterMap_cons]
    cases restoreEndpoint env genDirOf c <;> simp

/-- C2.  The generation-taking `Restore`: with an empty generation
string it fails immediately, for every server name, before any engine
call or file operation (its trace is empty); with a non-empty
generation it mirrors exactly the named generation directories — every
rsync source is `destBase/<generation>/`, never a most-recent
shortcut. -/
theorem restoreGen_explicit_generation :
    (∀ (cfg : Config) (env : Env) (id : String),
      Manager.RestoreGen cfg env id "" = (some "generation is required", [])) ∧
    (∀ (cfg : Config) (env : Env) (id g : String) (server : ServerConfig),
      g ≠ "" → cfg.lookupServer id = some server →
      isFoundRunning env.inspect = false →
      (Manager.RestoreGen cfg env id g).2.filterMap rsyncEnd =
        server.commands.backup.filterMap
          (restoreEndpoint env fun destBase => destBase ++ "/" ++ g)) := by
  constructor
  · intro cfg env id
    rfl
  · intro cfg env id g server hg h1 h2
    unfold Manager.RestoreGen
    rw [if_neg hg]
    simp only [h1, h2]
    simp only [Bool.false_eq_true, if_false]
    rw [restore_foldl_endpoints]
    simp [rsyncEnd]

/-- Witness for C2: the empty generation fails with an empty trace and
a named generation is the rsync source for both fixture steps. -/
theorem restoreGen_explicit_generation_witness :
    Manager.RestoreGen cfgFix envHalf "two" "" = (some "generation is required", []) ∧
    (Manager.RestoreGen cfgFix envHalf "two" "g1").2.filterMap rsyncEnd =
      srvTwoSteps.commands.backup.filterMap
        (restoreEndpoint envHalf fun destBase => destBase ++ "/" ++ "g1") :=
  ⟨restoreGen_explicit_generation.1 cfgFix envHalf "two",
    restoreGen_explicit_generation.2 cfgFix envHalf "two" "g1" srvTwoSteps
      (by decide) (by decide) rfl⟩

/-- Counterexample to C5: the empty path does not return the root
sentinel — `filepath.Clean("")` is `"."`, which `MapPath` then treats
as a server name, here yielding a not-found error. -/
theorem mapPath_empty_path_cex :
    MapPath cfgFix (some [mountData]) "alice" "" = MapResult.errNotExist ∧
    MapPath cfgFix (some [mountData]) "alice" "" ≠ MapResult.vfsRoot := by
  decide

/-- C5 as amended.  A path of separators only (such as `/`) returns the
root sentinel (the empty path instead cleans to `.` and is treated as a
server name); a single-segment path naming an existing server the user
may read returns the server-root sentinel; a multi-segment path whose
second segment equals a live mount destination resolves to the mount's
host source joined with the remaining segments; a second segment
matching no live mount yields a not-found error. -/
theorem mapPath_cases :
    (∀ (cfg : Config) (mounts : Option (List Mount)) (u : String),
      MapPath cfg mounts u "/" = MapResult.vfsRoot) ∧
    (∀ (cfg : Config) (mounts : Option (List Mount)) (u p s : String)
      (user : UserConfig) (server : ServerConfig),
      vfsParts p = [s] → s ≠ "" →
      cfg.lookupUser u = some user →
      user.hasPermission s PermContainerRead = true →
      cfg.lookupServer s = some server →
      MapPath cfg mounts u p = MapResult.vfsContainerRoot) ∧
    (∀ (cfg : Config) (ms : List Mount) (u p s d : String)
      (rest : List String) (user : UserConfig) (server : ServerConfig)
      (mnt : Mount),
      vfsParts p = s :: d :: rest →
      cfg.lookupUser u = some user →
      user.hasPermission s PermContainerRead = true →
      cfg.lookupServer s = some server →
      ms.find? (fun m => trimBoth '/' m.destination == d) = some mnt →
      MapPath cfg (some ms) u p =
        MapResult.real (joinPath mnt.source
          (if rest = [] then "." else joinStr '/' rest))) ∧
    (∀ (cfg : Config) (ms : List Mount) (u p s d : String)
      (rest : List String) (user : UserConfig) (server : ServerConfig),
      vfsParts p = s :: d :: rest →
      cfg.lookupUser u = some user →
      user.hasPermission s PermContainerRead = true →
      cfg.lookupServer s = some server →
      ms.find? (fun m => trimBoth '/' m.destination == d) = none →
      MapPath cfg (some ms) u p = MapResult.errNotExist) := by
  refine ⟨fun cfg mounts u => rfl, ?_, ?_, ?_⟩
  · intro cfg mounts u p s user server hp hne hu hperm hs
    unfold MapPath
    rw [hp]
    simp [hne, hu, hperm, hs]
  · intro cfg ms u p s d rest user server mnt hp hu hperm hs hfind
    unfold MapPath
    rw [hp]
    simp [hu, hperm, hs, hfind]
  · intro cfg ms u p s d rest user server hp hu hperm hs hfind
    unfold MapPath
    rw [hp]
    simp [hu, hperm, hs, hfind]

/-- Witness for C5 (amended): the four cases over the fixtures. -/
theorem mapPath_cases_witness :
    MapPath cfgFix (some [mountData]) "alice" "/" = MapResult.vfsRoot ∧
    MapPath cfgFix (some [mountData]) "alice" "serverA" = MapResult.vfsContainerRoot ∧
    MapPath cfgFix (some [mountData]) "alice" "serverA/data/x.txt" =
      MapResult.real (joinPath mountData.source
        (if (["x.txt"] : List String) = [] then "." else joinStr '/' ["x.txt"])) ∧
    MapPath cfgFix (some [mountData]) "alice" "serverA/nope/x.txt" =
      MapResult.errNotExist :=
  ⟨mapPath_cases.1 cfgFix (some [mountData]) "alice",
    mapPath_cases.2.1 cfgFix (some [mountData]) "alice" "serverA" "serverA"
      userStar srvPlain (by decide) (by decide) (by decide) (by decide) (by decide),
    mapPath_cases.2.2.1 cfgFix [mountData] "alice" "serverA/data/x.txt" "serverA"
      "data" ["x.txt"] userStar srvPlain mountData (by decide) (by decide)
      (by decide) (by decide) (by decide),
    mapPath_cases.2.2.2 cfgFix [mountData] "alice" "serverA/nope/x.txt" "serverA"
      "nope" ["x.txt"] userStar srvPlain (by decide) (by decide) (by decide)
      (by decide) (by decide)⟩

end PlayBin
